import Mathlib

/-!
Verification of the teams-exporter repository (two Python source files:
`teams_exporter.py` and `create_threads.py`) against its natural-language
specification.  The Python functions are shallowly embedded as executable
Lean definitions; network interaction is modelled by a script of page
responses consumed in request order.
-/

namespace TeamsExporter

/-! ## Data model

A Teams message record.  Every field is optional because the Python code
accesses the underlying JSON dictionaries with `.get`: `none` models an
absent key (the code never distinguishes an absent key from a key bound to
`null` in a way the claims depend on).  The source field `from` is a Lean
keyword, so it is called `fromField` here. -/

structure UserRec where
  displayName : Option String
  deriving DecidableEq, Repr

structure FromRec where
  user : Option UserRec
  deriving DecidableEq, Repr

structure BodyRec where
  contentType : Option String
  content : Option String
  deriving DecidableEq, Repr

structure Message where
  id : Option String
  replyToId : Option String
  createdDateTime : Option String
  fromField : Option FromRec
  subject : Option String
  body : Option BodyRec
  deriving DecidableEq, Repr

/-- Python truthiness of an optional string: `None` and `""` are falsy. -/
def truthyOptStr : Option String → Bool
  | none => false
  | some s => !s.isEmpty

/-! ## String primitives mirroring the Python standard library -/

/-- The character class matched by Python `\s` (ASCII range). -/
def pyIsSpace (c : Char) : Bool :=
  c = ' ' || c = '\t' || c = '\n' || c = '\r' || c = '\x0b' || c = '\x0c'

/-- `str.strip()` on a character list. -/
def pyStripL (l : List Char) : List Char :=
  ((l.dropWhile pyIsSpace).reverse.dropWhile pyIsSpace).reverse

/-- `str.strip()`. -/
def pyStripS (s : String) : String :=
  String.mk (pyStripL s.data)

/-- `str.replace(pat, rep)` on character lists: leftmost, non-overlapping,
replacing every occurrence (also the semantics of `re.sub` on a literal
pattern).  Structural recursion on a fuel that starts at the list length
(each step consumes at least one character, so the fuel never runs out). -/
def pyReplaceF (pat rep : List Char) : Nat → List Char → List Char
  | 0, l => l
  | _ + 1, [] => []
  | fuel + 1, c :: rest =>
    if pat ≠ [] ∧ pat.isPrefixOf (c :: rest) = true then
      rep ++ pyReplaceF pat rep fuel ((c :: rest).drop pat.length)
    else
      c :: pyReplaceF pat rep fuel rest

def pyReplaceL (pat rep : List Char) (l : List Char) : List Char :=
  pyReplaceF pat rep l.length l

/-- `str.replace(pat, rep)`. -/
def pyReplaceS (s pat rep : String) : String :=
  String.mk (pyReplaceL pat.data rep.data s.data)

/-- `str.split(sep)` with a non-empty separator, on character lists
(fuel-based structural recursion; fuel starts at the list length). -/
def pySplitF (sep : List Char) : Nat → List Char → List (List Char)
  | 0, l => [l]
  | _ + 1, [] => [[]]
  | fuel + 1, c :: rest =>
    if sep.isPrefixOf (c :: rest) then
      [] :: pySplitF sep fuel ((c :: rest).drop sep.length)
    else
      match pySplitF sep fuel rest with
      | [] => [[c]]
      | seg :: segs => (c :: seg) :: segs

/-- `str.split(sep)`: `"a\n\nb".split('\n') = ['a', '', 'b']`,
`"".split('\n') = ['']`. -/
def pySplit (s sep : String) : List String :=
  (pySplitF sep.data s.data.length s.data).map String.mk

/-! ## HTML-to-text normalisation

`create_threads.parse_html_content` first rewrites `<br\s*/?>` tags to
newlines, then removes every `<...>` tag, then decodes four entities, then
strips the result.  `teams_exporter.strip_html` removes tags (dropping
`<br>` without inserting a newline), decodes five entities, collapses all
whitespace runs to single spaces and strips. -/

/-- Helper for `brClose`: after `/` the only acceptable continuation is `>`. -/
def brSlash : List Char → Option (List Char)
  | '>' :: r2 => some r2
  | _ => none

theorem brSlash_length (l l2 : List Char) (h : brSlash l = some l2) :
    l2.length < l.length := by
  unfold brSlash at h
  split at h
  · cases h; simp
  · cases h

/-- After having read `"<br"`, consume `\s*` then an optional `/`, then `>`.
Returns the remainder on a match. -/
def brClose : List Char → Option (List Char)
  | [] => none
  | c :: rest =>
    if c = '>' then some rest
    else if c = '/' then brSlash rest
    else if pyIsSpace c then brClose rest
    else none

theorem brClose_length : ∀ (l l2 : List Char), brClose l = some l2 → l2.length < l.length := by
  intro l
  induction l with
  | nil => intro l2 h; simp [brClose] at h
  | cons c rest ih =>
    intro l2 h
    simp only [brClose] at h
    split at h
    · cases h; simp
    · split at h
      · have := brSlash_length rest l2 h; simp; omega
      · split at h
        · have := ih l2 h; simp; omega
        · cases h

/-- `re.sub(r'<br\s*/?>', '\n', text)`: scan left to right, replacing each
match with a newline (fuel-based structural recursion, fuel starts at the
list length). -/
def subBrF : Nat → List Char → List Char
  | 0, l => l
  | _ + 1, [] => []
  | fuel + 1, '<' :: 'b' :: 'r' :: rest =>
    (match brClose rest with
     | some rest2 => '\n' :: subBrF fuel rest2
     | none => '<' :: subBrF fuel ('b' :: 'r' :: rest))
  | fuel + 1, c :: rest => c :: subBrF fuel rest

def subBr (l : List Char) : List Char :=
  subBrF l.length l

/-- Scan for the closing `>` of a tag (the `[^>]*>` part). -/
def tagScan : List Char → Option (List Char)
  | [] => none
  | c :: rest => if c = '>' then some rest else tagScan rest

theorem tagScan_length : ∀ (l l2 : List Char), tagScan l = some l2 → l2.length < l.length := by
  intro l
  induction l with
  | nil => intro l2 h; simp [tagScan] at h
  | cons c rest ih =>
    intro l2 h
    simp only [tagScan] at h
    split at h
    · cases h; simp
    · have := ih l2 h; simp; omega

/-- After having read `<`, match `[^>]+>`: at least one character that is
not `>`, then everything up to and including the first `>`. -/
def tagClose : List Char → Option (List Char)
  | [] => none
  | c :: rest => if c = '>' then none else tagScan rest

theorem tagClose_length (l l2 : List Char) (h : tagClose l = some l2) :
    l2.length < l.length := by
  match l with
  | [] => simp [tagClose] at h
  | c :: rest =>
    simp only [tagClose] at h
    split at h
    · cases h
    · have := tagScan_length rest l2 h; simp; omega

/-- `re.sub(r'<[^>]+>', '', text)`: remove every tag (fuel-based). -/
def removeTagsF : Nat → List Char → List Char
  | 0, l => l
  | _ + 1, [] => []
  | fuel + 1, c :: rest =>
    if c = '<' then
      match tagClose rest with
      | some rest2 => removeTagsF fuel rest2
      | none => c :: removeTagsF fuel rest
    else c :: removeTagsF fuel rest

def removeTags (l : List Char) : List Char :=
  removeTagsF l.length l

/-- `re.sub(r'\s+', ' ', text)`: collapse every whitespace run to one
space (fuel-based). -/
def collapseWsF : Nat → List Char → List Char
  | 0, l => l
  | _ + 1, [] => []
  | fuel + 1, c :: rest =>
    if pyIsSpace c then ' ' :: collapseWsF fuel (rest.dropWhile pyIsSpace)
    else c :: collapseWsF fuel rest

def collapseWs (l : List Char) : List Char :=
  collapseWsF l.length l

/-- `create_threads.parse_html_content`. -/
def parse_html_content (html_text : String) : String :=
  if html_text.isEmpty then ""
  else
    let t := subBr html_text.data
    let t := removeTags t
    let t := pyReplaceL "&nbsp;".data " ".data t
    let t := pyReplaceL "&lt;".data "<".data t
    let t := pyReplaceL "&gt;".data ">".data t
    let t := pyReplaceL "&amp;".data "&".data t
    String.mk (pyStripL t)

/-- `teams_exporter.strip_html`. -/
def strip_html (html_content : String) : String :=
  if html_content.isEmpty then ""
  else
    let t := removeTags html_content.data
    let t := pyReplaceL "&nbsp;".data " ".data t
    let t := pyReplaceL "&lt;".data "<".data t
    let t := pyReplaceL "&gt;".data ">".data t
    let t := pyReplaceL "&amp;".data "&".data t
    let t := pyReplaceL "&quot;".data "\"".data t
    let t := collapseWs t
    String.mk (pyStripL t)

/-! ## `datetime.fromisoformat` and `strftime`

The two Python files parse timestamps with
`datetime.fromisoformat(ts.replace('Z', '+00:00'))`.  We model the strict
isoformat dialect that function accepts (`YYYY-MM-DD[*HH[:MM[:SS[.fff[fff]]]]
[±HH:MM[:SS[.ffffff]]]]`, with the date fields range-checked by the
`datetime` constructor), returning `none` where Python raises
`ValueError`. -/

structure PyDateTime where
  year : Nat
  month : Nat
  day : Nat
  hour : Nat
  minute : Nat
  second : Nat
  deriving DecidableEq, Repr

/-- Value of a decimal digit character. -/
def digitVal (c : Char) : Option Nat :=
  if c.isDigit then some (c.toNat - 48) else none

/-- Read exactly two digits. -/
def read2 : List Char → Option (Nat × List Char)
  | c1 :: c2 :: rest =>
    match digitVal c1, digitVal c2 with
    | some a, some b => some (10 * a + b, rest)
    | _, _ => none
  | _ => none

/-- Read exactly four digits. -/
def read4 (l : List Char) : Option (Nat × List Char) := do
  let (a, l1) ← read2 l
  let (b, l2) ← read2 l1
  pure (100 * a + b, l2)

/-- Expect one specific character. -/
def expectChar (c : Char) : List Char → Option (List Char)
  | d :: rest => if d = c then some rest else none
  | [] => none

/-- Parse exactly `YYYY-MM-DD` and nothing more. -/
def parseDate (l : List Char) : Option (Nat × Nat × Nat) := do
  let (y, l1) ← read4 l
  let l2 ← expectChar '-' l1
  let (mo, l3) ← read2 l2
  let l4 ← expectChar '-' l3
  let (dy, l5) ← read2 l4
  if l5 = [] then pure (y, mo, dy) else none

def isLeapYear (y : Nat) : Bool :=
  y % 4 == 0 && (y % 100 != 0 || y % 400 == 0)

def daysInMonth (y m : Nat) : Nat :=
  if m = 2 then (if isLeapYear y then 29 else 28)
  else if m = 4 ∨ m = 6 ∨ m = 9 ∨ m = 11 then 30
  else 31

/-- Range checks performed by the `datetime` constructor. -/
def validDate (y mo dy : Nat) : Bool :=
  decide (1 ≤ y ∧ y ≤ 9999 ∧ 1 ≤ mo ∧ mo ≤ 12 ∧ 1 ≤ dy ∧ dy ≤ daysInMonth y mo)

/-- Parse a time string `HH[:MM[:SS[.fff[fff]]]]` (the fraction is ignored
but validated). -/
def parse_hms (tstr : List Char) : Option (Nat × Nat × Nat) := do
  let (h, r1) ← read2 tstr
  match r1 with
  | [] => pure (h, 0, 0)
  | ':' :: r2 => do
    let (mi, r3) ← read2 r2
    match r3 with
    | [] => pure (h, mi, 0)
    | ':' :: r4 => do
      let (s, r5) ← read2 r4
      match r5 with
      | [] => pure (h, mi, s)
      | '.' :: r6 =>
        if (r6.length == 3 || r6.length == 6) && r6.all (fun c => c.isDigit) then
          pure (h, mi, s)
        else none
      | _ => none
    | _ => none
  | _ => none

/-- Split a time string at the first `-`, else at the first `+`
(CPython finds the `-` sign first). -/
def splitAtChar (c : Char) : List Char → Option (List Char × List Char)
  | [] => none
  | d :: rest =>
    if d = c then some ([], rest)
    else
      match splitAtChar c rest with
      | some (a, b) => some (d :: a, b)
      | none => none

def findSignSplit (tstr : List Char) : Option (List Char × List Char) :=
  match splitAtChar '-' tstr with
  | some p => some p
  | none => splitAtChar '+' tstr

/-- Validate a timezone suffix `HH:MM[:SS[.ffffff]]` (length 5, 8 or 15;
offset strictly less than 24 hours). -/
def tzValid (tzstr : List Char) : Bool :=
  (tzstr.length == 5 || tzstr.length == 8 || tzstr.length == 15) &&
    (match parse_hms tzstr with
     | some (h, mi, s) => decide (h * 3600 + mi * 60 + s < 86400)
     | none => false)

/-- Parse the portion after the date separator: wall time plus an optional
timezone offset (the offset does not change the wall-clock fields). -/
def parse_isoformat_time (tstr : List Char) : Option (Nat × Nat × Nat) :=
  match findSignSplit tstr with
  | some (timestr, tzstr) => do
    let hms ← parse_hms timestr
    if tzValid tzstr then pure hms else none
  | none => parse_hms tstr

/-- `datetime.fromisoformat`: date part is the first 10 characters; the
character at index 10 (any character) separates the time part. -/
def fromisoformat (s : String) : Option PyDateTime := do
  let l := s.data
  let (y, mo, dy) ← parseDate (l.take 10)
  if validDate y mo dy then
    if l.length ≤ 10 then
      pure ⟨y, mo, dy, 0, 0, 0⟩
    else do
      let (h, mi, se) ← parse_isoformat_time (l.drop 11)
      if h ≤ 23 ∧ mi ≤ 59 ∧ se ≤ 59 then pure ⟨y, mo, dy, h, mi, se⟩ else none
  else none

/-- Zero-pad a number to a given width. -/
def padZero (w n : Nat) : String :=
  let s := toString n
  String.mk (List.replicate (w - s.length) '0') ++ s

/-- `dt.strftime('%Y-%m-%d %H:%M')` (used by `create_threads.format_message`). -/
def strftime_ymd_hm (dt : PyDateTime) : String :=
  padZero 4 dt.year ++ "-" ++ padZero 2 dt.month ++ "-" ++ padZero 2 dt.day ++ " " ++
    padZero 2 dt.hour ++ ":" ++ padZero 2 dt.minute

/-- `dt.strftime('%Y-%m-%d %H:%M:%S UTC')` (used by
`teams_exporter.format_datetime`). -/
def strftime_ymd_hms_utc (dt : PyDateTime) : String :=
  padZero 4 dt.year ++ "-" ++ padZero 2 dt.month ++ "-" ++ padZero 2 dt.day ++ " " ++
    padZero 2 dt.hour ++ ":" ++ padZero 2 dt.minute ++ ":" ++ padZero 2 dt.second ++ " UTC"

/-- `teams_exporter.format_datetime`: the bare `except` returns the input
unchanged whenever parsing fails. -/
def format_datetime (iso_datetime : String) : String :=
  match fromisoformat (pyReplaceS iso_datetime "Z" "+00:00") with
  | some dt => strftime_ymd_hms_utc dt
  | none => iso_datetime

/-! ## Sorting

Python `sorted(l, key=...)` is a stable ascending sort; `reverse=True`
yields the stable descending order (ties keep original order).  Both are
modelled with the verified stable `List.mergeSort`.  The sort key used
everywhere in the sources is `x.get('createdDateTime', '')`. -/

def createdKey (m : Message) : String :=
  m.createdDateTime.getD ""

/-- Python string comparison `a <= b`: lexicographic by Unicode code
point. -/
def charListLe : List Char → List Char → Bool
  | [], _ => true
  | _ :: _, [] => false
  | a :: as, b :: bs =>
    if a.toNat < b.toNat then true
    else if b.toNat < a.toNat then false
    else charListLe as bs

def strLe (a b : String) : Bool :=
  charListLe a.data b.data

def createdLe (a b : Message) : Bool :=
  strLe (createdKey a) (createdKey b)

/-- `sorted(l, key=lambda x: x.get('createdDateTime', ''))`. -/
def sortByCreated (l : List Message) : List Message :=
  l.mergeSort createdLe

/-- `sorted(l, key=..., reverse=True)`: stable descending. -/
def sortByCreatedRev (l : List Message) : List Message :=
  l.mergeSort (fun a b => createdLe b a)

/-! ## `create_threads.format_message` -/

/-- Author resolution in `create_threads.format_message`.  An absent or
non-dict `from` gives `"Unknown"`; a falsy `from['user']` (absent key or
empty dict, the latter modelled as a `UserRec` without `displayName`)
gives `"System"`. -/
def format_message_author (m : Message) : String :=
  match m.fromField with
  | none => "Unknown"
  | some f =>
    match f.user with
    | none => "System"
    | some u =>
      match u.displayName with
      | none => "System"
      | some name => name

/-- The lines built by `create_threads.format_message` (joined with
newlines by `format_message`).  Returns `none` where the Python function
raises: `datetime.fromisoformat` is called without a `try` block, so a
non-empty unparsable `createdDateTime` propagates a `ValueError`.
The local `msg_id = msg.get('id', 'unknown')` of the source is dead code
and is omitted. -/
def format_message_lines (msg : Message) (indent : Nat) : Option (List String) := do
  let istr := String.mk (List.replicate (2 * indent) ' ')
  let author := format_message_author msg
  let subject := msg.subject.getD ""
  let created := msg.createdDateTime.getD ""
  let timestamp ←
    if created ≠ "" then
      match fromisoformat (pyReplaceS created "Z" "+00:00") with
      | some dt => some (strftime_ymd_hm dt)
      | none => none
    else some "Unknown time"
  let body := msg.body.getD ⟨none, none⟩
  let content_type := body.contentType.getD "text"
  let content0 := body.content.getD ""
  let content := if content_type = "html" then parse_html_content content0 else content0
  let head : List String :=
    if subject ≠ "" ∧ indent = 0 then [istr ++ "### " ++ subject, ""] else []
  let bodyLines : List String :=
    if content ≠ "" then
      ((pySplit content "\n").filter (fun line => !(pyStripS line).isEmpty)).map
        (fun line => istr ++ line) ++ [""]
    else []
  pure (head ++ [istr ++ "**" ++ author ++ "** • " ++ timestamp, ""] ++ bodyLines)

/-- `create_threads.format_message`. -/
def format_message (msg : Message) (indent : Nat) : Option String :=
  (format_message_lines msg indent).map (String.intercalate "\n")

/-! ## `teams_exporter.convert_thread_to_markdown` -/

/-- Author resolution in `teams_exporter.convert_thread_to_markdown`:
`(message.get('from') or {}).get('user') or {}` then
`.get('displayName', 'Unknown')`. -/
def exporter_author (m : Message) : String :=
  ((m.fromField.bind (fun f => f.user)).bind (fun u => u.displayName)).getD "Unknown"

/-- The `body = strip_html(body_data.get('content', ''))` step: applied to
every message, with no `contentType` test. -/
def exporter_body (m : Message) : String :=
  strip_html ((m.body.getD ⟨none, none⟩).content.getD "")

/-- The lines of one `### Reply N` section. -/
def reply_section (idx : Nat) (reply : Message) : List String :=
  ["### Reply " ++ toString idx, "",
   "**From:** " ++ exporter_author reply,
   "**Date:** " ++ format_datetime (reply.createdDateTime.getD ""), "",
   exporter_body reply, ""]

/-- Number the replies from 1, in order. -/
def numberFrom (i : Nat) : List Message → List (Nat × Message)
  | [] => []
  | m :: rest => (i, m) :: numberFrom (i + 1) rest

/-- `teams_exporter.convert_thread_to_markdown`. -/
def convert_thread_to_markdown (message : Message) (replies : List Message) : String :=
  let author := exporter_author message
  let created := format_datetime (message.createdDateTime.getD "")
  let subject := if (message.subject.getD "").isEmpty then "(No Subject)"
                 else message.subject.getD ""
  let body := exporter_body message
  let md := ["# " ++ subject, "", "**Posted by:** " ++ author,
             "**Date:** " ++ created, "", "---", "", body, ""]
  let md :=
    if replies.isEmpty then md
    else
      let sorted_replies := sortByCreated replies
      md ++ ["---", "", "## Replies (" ++ toString sorted_replies.length ++ ")", ""] ++
        (numberFrom 1 sorted_replies).flatMap (fun p => reply_section p.1 p.2)
  String.intercalate "\n" md

/-! ## `create_threads.build_thread_tree` -/

/-- Lookup in the `replies_by_parent` dict (modelled as an association
list in key-insertion order). -/
def bucketGet (bk : List (String × List Message)) (k : String) : Option (List Message) :=
  match bk with
  | [] => none
  | (k2, ms) :: rest => if k2 = k then some ms else bucketGet rest k

/-- `replies_by_parent[reply_to].append(msg)`, creating the key if absent. -/
def bucketsInsert (bk : List (String × List Message)) (k : String) (m : Message) :
    List (String × List Message) :=
  match bk with
  | [] => [(k, [m])]
  | (k2, ms) :: rest =>
    if k2 = k then (k2, ms ++ [m]) :: rest else (k2, ms) :: bucketsInsert rest k m

/-- One `dict[key] = value` update (overwrite keeps the key position). -/
def dictInsert (d : List (String × Message)) (k : String) (v : Message) :
    List (String × Message) :=
  match d with
  | [] => [(k, v)]
  | (k2, v2) :: rest =>
    if k2 = k then (k2, v) :: rest else (k2, v2) :: dictInsert rest k v

/-- `{msg['id']: msg for msg in messages}`: raises `KeyError` (here `none`)
if some message lacks an `id`. -/
def msg_by_id_loop : List Message → List (String × Message) → Option (List (String × Message))
  | [], d => some d
  | m :: rest, d =>
    match m.id with
    | some i => msg_by_id_loop rest (dictInsert d i m)
    | none => none

/-- The partitioning loop of `build_thread_tree`: a truthy `replyToId`
sends the message to its parent's bucket, otherwise to the roots. -/
def build_loop : List Message → List Message × List (String × List Message) →
    List Message × List (String × List Message)
  | [], acc => acc
  | m :: rest, (roots, bk) =>
    if truthyOptStr m.replyToId then
      build_loop rest (roots, bucketsInsert bk (m.replyToId.getD "") m)
    else
      build_loop rest (roots ++ [m], bk)

/-- `create_threads.build_thread_tree`. -/
def build_thread_tree (messages : List Message) :
    Option (List Message × List (String × List Message) × List (String × Message)) :=
  match msg_by_id_loop messages [] with
  | none => none
  | some d => some ((build_loop messages ([], [])).1, (build_loop messages ([], [])).2, d)

/-! ## `create_threads.format_thread` and `main`

`format_thread` recurses through `replies_by_parent`; on a cyclic input the
Python function does not terminate, modelled here by a fuel parameter
(`none` = divergence; the caller passes enough fuel for any acyclic
input). -/

mutual

def format_thread (fuel : Nat) (msg : Message) (bk : List (String × List Message))
    (indent : Nat) : Option String :=
  match fuel with
  | 0 => none
  | fuel + 1 => do
    let first ← format_message msg indent
    let mid ← msg.id
    let rest ← format_thread_list fuel
      (match bucketGet bk mid with
       | some replies => sortByCreated replies
       | none => []) bk (indent + 1)
    pure (String.intercalate "\n" (first :: rest))

def format_thread_list (fuel : Nat) (msgs : List Message)
    (bk : List (String × List Message)) (indent : Nat) : Option (List String) :=
  match msgs with
  | [] => pure []
  | m :: rest => do
    let s ← format_thread fuel m bk indent
    let others ← format_thread_list fuel rest bk indent
    pure (s :: others)

end

/-- Metadata read back from the exported JSON by `create_threads.main`. -/
structure CtMetadata where
  exported_at : Option String
  message_count : Option Nat
  deriving DecidableEq, Repr

/-- The document assembly of `create_threads.main`: header, then one
`## Thread i` section per root message, roots sorted newest-first. -/
def create_threads_output (messages : List Message) (metadata : CtMetadata) :
    Option String := do
  let (roots, bk, _) ← build_thread_tree messages
  let roots := sortByCreatedRev roots
  let threads ← (numberFrom 1 roots).mapM (fun p => do
    let t ← format_thread (messages.length + 1) p.2 bk 0
    pure ["## Thread " ++ toString p.1, "", t, "---", ""])
  pure (String.intercalate "\n"
    (["# Teams Channel Discussions", "",
      "**Exported**: " ++ metadata.exported_at.getD "Unknown",
      "**Total Messages**: " ++ toString (metadata.message_count.getD 0), "", "---", ""] ++
     threads.flatten))

/-! ## The paginated fetcher of `teams_exporter.export_messages` and
`teams_exporter.fetch_message_replies`

Network interaction is modelled by a script: the list of responses the
server produces for the successive HTTP requests, in request order.  The
loops consume one script entry per request; an exhausted script while the
loop still has a continuation URL yields `none` (the run is not determined
by the script).  Real time (`time.sleep`) is modelled by recording the
rate-limit sleep durations and counting the fixed pacing delays. -/

inductive PageResponse where
  /-- Status 200 with an item batch; `nextLink` tells whether the page
  carries an `@odata.nextLink` continuation URL. -/
  | page (batch : List Message) (nextLink : Bool)
  /-- Status 429 with the optional parsed `Retry-After` header. -/
  | rateLimited (retryAfter : Option Nat)
  /-- Any other HTTP status (404, 500, ...). -/
  | httpError (code : Nat)
  /-- A `requests.exceptions.RequestException`. -/
  | networkError
  deriving DecidableEq, Repr

/-- The loop state of `export_messages`. -/
structure ExportState where
  messages : List Message
  thread_files : List String
  total_replies : Nat
  page : Nat
  rate_sleeps : List Nat
  pacing : Nat
  deriving DecidableEq, Repr

def initExportState : ExportState := ⟨[], [], 0, 0, [], 0⟩

/-- What `export_messages` has produced when its pagination loop ends
normally (the subsequent `_metadata.json` fields are projections of
this). -/
structure ExportResult where
  messages : List Message
  thread_files : List String
  total_replies : Nat
  pages_fetched : Nat
  rate_sleeps : List Nat
  pacing : Nat
  deriving DecidableEq, Repr

def finalize (st : ExportState) : ExportResult :=
  ⟨st.messages, st.thread_files, st.total_replies, st.page, st.rate_sleeps, st.pacing⟩

/-- `f"thread_{message_id}.md"` with `message_id = message.get('id')`
(Python renders an absent id as `None`). -/
def thread_filename (m : Message) : String :=
  "thread_" ++ m.id.getD "None" ++ ".md"

/-- Truthiness of the optional caps `max_messages` / `max_replies`:
`None` and `0` are falsy, so a cap of zero is never enforced. -/
def truthyCap : Option Nat → Bool
  | none => false
  | some n => n != 0

/-- Replies fetched for one page batch when reply fetching is enabled
(the per-message reply fetch is abstracted by `replies_for`; its own loop
is `fetch_replies_loop` below). -/
def repliesCount (fetch_replies : Bool) (replies_for : Message → List Message)
    (batch : List Message) : Nat :=
  if fetch_replies then (batch.map (fun m => (replies_for m).length)).sum else 0

/-- The pagination loop of `export_messages` (lines 197-285).  Each
iteration issues one request: a 429 sleeps for `Retry-After` (default 60)
and retries the same URL; any other non-200 outcome aborts with `None`;
a 200 page writes one thread file per batch message, extends the
accumulator, breaks when the truthy cap is reached (truncating to the
cap), and otherwise follows the continuation link (sleeping 0.5s) or ends.
`page` is incremented at the top of every iteration, before the status
checks. -/
def export_loop (fetch_replies : Bool) (replies_for : Message → List Message)
    (max_messages : Option Nat) :
    List PageResponse → ExportState → Option ExportResult
  | [], _ => none
  | resp :: rest, st =>
    let st1 : ExportState := {st with page := st.page + 1}
    match resp with
    | .rateLimited ra =>
      export_loop fetch_replies replies_for max_messages rest
        {st1 with rate_sleeps := st1.rate_sleeps ++ [ra.getD 60]}
    | .httpError _ => none
    | .networkError => none
    | .page batch nextLink =>
      let st2 : ExportState :=
        { st1 with
          thread_files := st1.thread_files ++ batch.map thread_filename
          total_replies := st1.total_replies + repliesCount fetch_replies replies_for batch
          messages := st1.messages ++ batch }
      if truthyCap max_messages && decide (max_messages.getD 0 ≤ st2.messages.length) then
        some (finalize {st2 with messages := st2.messages.take (max_messages.getD 0)})
      else if nextLink then
        export_loop fetch_replies replies_for max_messages rest {st2 with pacing := st2.pacing + 1}
      else some (finalize st2)

/-- The metadata field `"message_count": len(messages)`. -/
def message_count (r : ExportResult) : Nat := r.messages.length

/-- The loop of `fetch_message_replies` (lines 329-364).  A 404 means "no
replies" and returns the empty list; a 429 sleeps and retries; any other
non-200 status, or a network error, degrades to an empty list; a 200 page
extends the accumulator, honours the truthy cap, and follows the
continuation link. -/
def fetch_replies_loop (max_replies : Option Nat) :
    List PageResponse → List Message → Option (List Message)
  | [], _ => none
  | resp :: rest, replies =>
    match resp with
    | .httpError code =>
      if code = 404 then some []  -- "404 means no replies - this is normal"
      else some []                -- "Log warning but don't crash - return empty list"
    | .rateLimited _ => fetch_replies_loop max_replies rest replies
    | .networkError => some []    -- "Graceful failure"
    | .page batch nextLink =>
      let replies := replies ++ batch
      if truthyCap max_replies && decide (max_replies.getD 0 ≤ replies.length) then
        some (replies.take (max_replies.getD 0))
      else if nextLink then fetch_replies_loop max_replies rest replies
      else some replies

/-! ## Properties of `build_thread_tree` -/

/-- The sub-collection of `messages` destined for bucket `k`. -/
def bucketFilter (msgs : List Message) (k : String) : List Message :=
  msgs.filter (fun m => truthyOptStr m.replyToId && (m.replyToId.getD "" == k))

theorem bucketGet_bucketsInsert (bk : List (String × List Message)) (key : String)
    (m : Message) (k : String) :
    bucketGet (bucketsInsert bk key m) k =
      if k = key then some (((bucketGet bk key).getD []) ++ [m]) else bucketGet bk k := by
  induction bk with
  | nil =>
    by_cases h : k = key
    · subst h; simp [bucketsInsert, bucketGet]
    · simp [bucketsInsert, bucketGet, h, Ne.symm h]
  | cons p rest ih =>
    obtain ⟨k2, ms⟩ := p
    by_cases h2 : k2 = key
    · subst h2
      by_cases hk : k = k2
      · subst hk; simp [bucketsInsert, bucketGet]
      · simp [bucketsInsert, bucketGet, hk, Ne.symm hk]
    · by_cases hk : k2 = k
      · subst hk
        have hkey : ¬ k2 = key := h2
        simp [bucketsInsert, bucketGet, h2, hkey, Ne.symm hkey]
      · simp [bucketsInsert, bucketGet, h2, hk, ih]

theorem build_loop_fst (msgs : List Message) :
    ∀ roots bk, (build_loop msgs (roots, bk)).1 =
      roots ++ msgs.filter (fun m => !truthyOptStr m.replyToId) := by
  induction msgs with
  | nil => intro roots bk; simp [build_loop]
  | cons m rest ih =>
    intro roots bk
    by_cases h : truthyOptStr m.replyToId
    · simp [build_loop, h, ih]
    · simp [build_loop, h, ih]

theorem build_loop_snd (msgs : List Message) :
    ∀ roots bk k, bucketGet (build_loop msgs (roots, bk)).2 k =
      (if bucketGet bk k = none ∧ bucketFilter msgs k = [] then none
       else some ((bucketGet bk k).getD [] ++ bucketFilter msgs k)) := by
  induction msgs with
  | nil =>
    intro roots bk k
    simp only [build_loop, bucketFilter, List.filter_nil]
    match h : bucketGet bk k with
    | none => simp
    | some b => simp
  | cons m rest ih =>
    intro roots bk k
    by_cases h : truthyOptStr m.replyToId
    · have hstep : build_loop (m :: rest) (roots, bk) =
          build_loop rest (roots, bucketsInsert bk (m.replyToId.getD "") m) := by
        simp [build_loop, h]
      rw [hstep, ih]
      by_cases hkey : m.replyToId.getD "" = k
      · have hpred : (truthyOptStr m.replyToId && (m.replyToId.getD "" == k)) = true := by
          simp [h, hkey]
        rw [bucketGet_bucketsInsert bk (m.replyToId.getD "") m k, if_pos hkey.symm]
        have hfc : bucketFilter (m :: rest) k = m :: bucketFilter rest k := by
          simp [bucketFilter, List.filter_cons, hpred]
        rw [hfc]
        match hbk : bucketGet bk k with
        | none => simp [hkey, hbk]
        | some b => simp [hkey, hbk]
      · have hpred : (truthyOptStr m.replyToId && (m.replyToId.getD "" == k)) = false := by
          simp [h, hkey]
        rw [bucketGet_bucketsInsert bk (m.replyToId.getD "") m k,
          if_neg (Ne.symm hkey)]
        have hfc : bucketFilter (m :: rest) k = bucketFilter rest k := by
          simp [bucketFilter, List.filter_cons, hpred]
        rw [hfc]
    · have hpred : (truthyOptStr m.replyToId && (m.replyToId.getD "" == k)) = false := by
        simp [h]
      have hstep : build_loop (m :: rest) (roots, bk) =
          build_loop rest (roots ++ [m], bk) := by
        simp [build_loop, h]
      rw [hstep, ih]
      have hfc : bucketFilter (m :: rest) k = bucketFilter rest k := by
        simp [bucketFilter, List.filter_cons, hpred]
      rw [hfc]

theorem build_thread_tree_eq (messages : List Message) (roots : List Message)
    (bk : List (String × List Message)) (d : List (String × Message))
    (h : build_thread_tree messages = some (roots, bk, d)) :
    roots = messages.filter (fun m => !truthyOptStr m.replyToId) ∧
      ∀ k, bucketGet bk k =
        (if bucketFilter messages k = [] then none else some (bucketFilter messages k)) := by
  unfold build_thread_tree at h
  match hd : msg_by_id_loop messages [] with
  | none => rw [hd] at h; cases h
  | some d2 =>
    rw [hd] at h
    rw [Option.some.injEq, Prod.mk.injEq, Prod.mk.injEq] at h
    obtain ⟨h1, h2, h3⟩ := h
    constructor
    · rw [← h1, build_loop_fst]; simp
    · intro k
      rw [← h2, build_loop_snd]
      simp [bucketGet]

/-! ## Claim C1 -/

/-- C1: for every input collection accepted by `build_thread_tree`, every
message is placed in exactly one of the two outputs: the roots list (when
its parent reference is absent or empty) — in original order — or exactly
one bucket of the parent-id-to-children mapping, keyed by its own
(non-empty) parent reference; a message with an orphaned parent reference
is still retained under that stated parent id (the bucket characterisation
holds for every key, whether or not it is the id of an input message). -/
theorem C1_thread_tree_partition (messages roots : List Message)
    (bk : List (String × List Message)) (d : List (String × Message))
    (h : build_thread_tree messages = some (roots, bk, d)) :
    roots = messages.filter (fun m => !truthyOptStr m.replyToId) ∧
    (∀ k, bucketGet bk k =
      (if bucketFilter messages k = [] then none else some (bucketFilter messages k))) ∧
    (∀ m k b, bucketGet bk k = some b → m ∈ b →
      m.replyToId = some k ∧ k ≠ "" ∧ m ∉ roots) ∧
    (∀ m, m ∈ messages → truthyOptStr m.replyToId = false → m ∈ roots) ∧
    (∀ m k, m ∈ messages → m.replyToId = some k → k ≠ "" →
      ∃ b, bucketGet bk k = some b ∧ m ∈ b) := by
  obtain ⟨h1, h2⟩ := build_thread_tree_eq messages roots bk d h
  refine ⟨h1, h2, ?_, ?_, ?_⟩
  · intro m k b hb hm
    rw [h2 k] at hb
    split at hb
    · cases hb
    · rw [Option.some.injEq] at hb
      subst hb
      obtain ⟨hmem, hpred⟩ := List.mem_filter.mp hm
      simp only [Bool.and_eq_true, beq_iff_eq] at hpred
      obtain ⟨htr, hkeq⟩ := hpred
      match hr : m.replyToId with
      | none => rw [hr] at htr; simp [truthyOptStr] at htr
      | some s =>
        rw [hr] at htr hkeq
        simp only [Option.getD_some] at hkeq
        subst hkeq
        have hse : s.isEmpty = false := by simpa [truthyOptStr] using htr
        refine ⟨rfl, ?_, ?_⟩
        · intro hcon
          subst hcon
          exact absurd hse (by decide)
        · intro hroot
          rw [h1] at hroot
          obtain ⟨_, hnp⟩ := List.mem_filter.mp hroot
          rw [hr] at hnp
          have hst : s.isEmpty = true := by simpa [truthyOptStr] using hnp
          simp [hst] at hse
  · intro m hm hfalse
    rw [h1]
    exact List.mem_filter.mpr ⟨hm, by simp [hfalse]⟩
  · intro m k hm hr hk
    have hke : k.isEmpty = false := by
      rw [Bool.eq_false_iff]
      intro hcon
      exact hk ((String.isEmpty_iff k).mp hcon)
    have hpred : (truthyOptStr m.replyToId && (m.replyToId.getD "" == k)) = true := by
      simp [truthyOptStr, hr, hke]
    have hmem : m ∈ bucketFilter messages k :=
      List.mem_filter.mpr ⟨hm, hpred⟩
    refine ⟨bucketFilter messages k, ?_, hmem⟩
    rw [h2 k]
    rw [if_neg (by intro hcon; rw [hcon] at hmem; cases hmem)]

/-- Concrete instantiation of `C1_thread_tree_partition`: a root, a reply
and an orphaned reply (parent id `"zz"` absent from the input). -/
def c1root : Message := ⟨some "1", none, some "2024-01-01T10:00:00Z", none, none, none⟩

def c1reply : Message := ⟨some "2", some "1", some "2024-01-01T11:00:00Z", none, none, none⟩

def c1orphan : Message := ⟨some "3", some "zz", some "2024-01-01T12:00:00Z", none, none, none⟩

/-- The outputs `build_thread_tree` produces on the C1 example. -/
def c1bk : List (String × List Message) := [("1", [c1reply]), ("zz", [c1orphan])]

def c1dict : List (String × Message) := [("1", c1root), ("2", c1reply), ("3", c1orphan)]

/-- Witness for `C1_thread_tree_partition` at the three-message example,
orphan included. -/
theorem C1_thread_tree_partition_witness :
    ([c1root] : List Message) =
      [c1root, c1reply, c1orphan].filter (fun m => !truthyOptStr m.replyToId) ∧
    bucketGet c1bk "zz" =
      (if bucketFilter [c1root, c1reply, c1orphan] "zz" = [] then none
       else some (bucketFilter [c1root, c1reply, c1orphan] "zz")) := by
  have h := C1_thread_tree_partition [c1root, c1reply, c1orphan] [c1root] c1bk c1dict
    (by decide)
  exact ⟨h.1, h.2.1 "zz"⟩

/-! ## Properties of the timestamp sorts -/

theorem charListLe_trans : ∀ (x y z : List Char),
    charListLe x y = true → charListLe y z = true → charListLe x z = true := by
  intro x
  induction x with
  | nil => intro y z h1 h2; rfl
  | cons a as ih =>
    intro y z h1 h2
    match y with
    | [] => simp [charListLe] at h1
    | b :: bs =>
      match z with
      | [] => simp [charListLe] at h2
      | c :: cs =>
        simp only [charListLe] at h1 h2 ⊢
        by_cases hab : a.toNat < b.toNat
        · by_cases hbc : b.toNat < c.toNat
          · have hac : a.toNat < c.toNat := Nat.lt_trans hab hbc
            simp [hac]
          · by_cases hcb : c.toNat < b.toNat
            · simp [hbc, hcb] at h2
            · have hac : a.toNat < c.toNat := by omega
              simp [hac]
        · by_cases hba : b.toNat < a.toNat
          · simp [hab, hba] at h1
          · by_cases hbc : b.toNat < c.toNat
            · have hac : a.toNat < c.toNat := by omega
              simp [hac]
            · by_cases hcb : c.toNat < b.toNat
              · simp [hbc, hcb] at h2
              · have hac : ¬ a.toNat < c.toNat := by omega
                have hca : ¬ c.toNat < a.toNat := by omega
                simp only [if_neg hab, if_neg hba] at h1
                simp only [if_neg hbc, if_neg hcb] at h2
                simp only [if_neg hac, if_neg hca]
                exact ih bs cs h1 h2

theorem charListLe_total : ∀ (x y : List Char), charListLe x y || charListLe y x := by
  intro x
  induction x with
  | nil => intro y; simp [charListLe]
  | cons a as ih =>
    intro y
    match y with
    | [] => simp [charListLe]
    | b :: bs =>
      simp only [charListLe]
      by_cases hab : a.toNat < b.toNat
      · simp [hab]
      · by_cases hba : b.toNat < a.toNat
        · simp [hab, hba]
        · simp only [if_neg hab, if_neg hba]
          exact ih bs

theorem createdLe_trans : ∀ (a b c : Message), createdLe a b → createdLe b c → createdLe a c := by
  intro a b c hab hbc
  exact charListLe_trans _ _ _ hab hbc

theorem createdLe_total : ∀ (a b : Message), createdLe a b || createdLe b a := by
  intro a b
  exact charListLe_total _ _

theorem createdGe_trans : ∀ (a b c : Message),
    createdLe b a → createdLe c b → createdLe c a := by
  intro a b c hab hbc
  exact createdLe_trans c b a hbc hab

theorem createdGe_total : ∀ (a b : Message), createdLe b a || createdLe a b := by
  intro a b
  have h := createdLe_total a b
  cases hx : createdLe a b <;> cases hy : createdLe b a <;> simp_all

theorem sortByCreated_sorted (l : List Message) :
    (sortByCreated l).Pairwise (fun a b => createdLe a b) :=
  @List.sorted_mergeSort Message createdLe createdLe_trans createdLe_total l

theorem sortByCreated_perm (l : List Message) : List.Perm (sortByCreated l) l :=
  List.mergeSort_perm l createdLe

theorem sortByCreated_stable (l : List Message) (x y : Message)
    (hsub : List.Sublist [x, y] l) (hxy : createdLe x y) :
    List.Sublist [x, y] (sortByCreated l) :=
  List.pair_sublist_mergeSort createdLe_trans createdLe_total hxy hsub

theorem sortByCreatedRev_sorted (l : List Message) :
    (sortByCreatedRev l).Pairwise (fun a b => createdLe b a) :=
  @List.sorted_mergeSort Message (fun a b => createdLe b a)
    (fun a b c hab hbc => createdGe_trans a b c hab hbc) createdGe_total l

theorem sortByCreatedRev_perm (l : List Message) : List.Perm (sortByCreatedRev l) l :=
  List.mergeSort_perm l _

/-! ## Claim C2 -/

/-- Counterexample input for C2: two replies to `"r"` arriving in
reverse-chronological input order. -/
def c2root : Message := ⟨some "r", none, some "2024-01-01T09:00:00Z", none, none, none⟩

def c2late : Message := ⟨some "b", some "r", some "2024-01-02T00:00:00Z", none, none, none⟩

def c2early : Message := ⟨some "a", some "r", some "2024-01-01T10:00:00Z", none, none, none⟩

/-- C2 counterexample: the Thread Tree Builder's output mapping does NOT
store children sorted by creation timestamp — the bucket for `"r"` holds
its children in original input order `[c2late, c2early]`, which is not
ascending. -/
theorem C2_bucket_unsorted_counterexample :
    build_thread_tree [c2root, c2late, c2early] =
      some ([c2root], [("r", [c2late, c2early])],
        [("r", c2root), ("b", c2late), ("a", c2early)]) ∧
    createdLe c2late c2early = false := by
  refine ⟨by decide, by decide⟩

/-- C2 amended: the Tree Builder's mapping stores, under each parent id,
that parent's direct children in ORIGINAL INPUT ORDER (and the roots in
original input order); the ascending-by-creation-timestamp order with
ties broken by input order is produced at render time, by the
`sorted(replies_by_parent[msg_id], key=...)` call of `format_thread`
(embedded as `sortByCreated`, which is sorted, a permutation, and
stable). -/
theorem C2_children_order (messages roots : List Message)
    (bk : List (String × List Message)) (d : List (String × Message))
    (h : build_thread_tree messages = some (roots, bk, d)) :
    roots = messages.filter (fun m => !truthyOptStr m.replyToId) ∧
    (∀ k b, bucketGet bk k = some b →
      b = bucketFilter messages k ∧
      (sortByCreated b).Pairwise (fun a c => createdLe a c) ∧
      List.Perm (sortByCreated b) b ∧
      (∀ x y, List.Sublist [x, y] b → createdLe x y → List.Sublist [x, y] (sortByCreated b))) := by
  obtain ⟨h1, h2⟩ := build_thread_tree_eq messages roots bk d h
  refine ⟨h1, ?_⟩
  intro k b hb
  rw [h2 k] at hb
  split at hb
  · cases hb
  · rw [Option.some.injEq] at hb
    subst hb
    exact ⟨rfl, sortByCreated_sorted _, sortByCreated_perm _,
      fun x y hs hxy => sortByCreated_stable _ x y hs hxy⟩

/-- Witness for `C2_children_order`, instantiated at the counterexample
bucket. -/
theorem C2_children_order_witness :
    (sortByCreated [c2late, c2early]).Pairwise (fun a c => createdLe a c) ∧
    List.Perm (sortByCreated [c2late, c2early]) [c2late, c2early] := by
  have h := C2_children_order [c2root, c2late, c2early] _ _ _ rfl
  have h3 := h.2 "r" [c2late, c2early] (by decide)
  exact ⟨h3.2.1, h3.2.2.1⟩

/-! ## Claim C10 -/

/-- C10: in the aggregate threaded document built by `create_threads.main`
(embedded as `create_threads_output`), root threads are emitted in the
order `sortByCreatedRev roots` — descending creation timestamp, newest
first, a permutation of the roots — while inside `format_thread` every
reply list is visited in the order `sortByCreated` — ascending creation
timestamp, a permutation of the stored bucket. -/
theorem C10_document_order (messages roots : List Message)
    (bk : List (String × List Message)) (d : List (String × Message))
    (h : build_thread_tree messages = some (roots, bk, d)) :
    (sortByCreatedRev roots).Pairwise (fun a b => createdLe b a) ∧
    List.Perm (sortByCreatedRev roots) roots ∧
    (∀ k b, bucketGet bk k = some b →
      (sortByCreated b).Pairwise (fun a c => createdLe a c) ∧
      List.Perm (sortByCreated b) b) := by
  refine ⟨sortByCreatedRev_sorted roots, sortByCreatedRev_perm roots, ?_⟩
  intro k b _
  exact ⟨sortByCreated_sorted b, sortByCreated_perm b⟩

/-- Witness for `C10_document_order` at the three-message input of the C2
example. -/
theorem C10_document_order_witness :
    List.Perm (sortByCreatedRev [c2root]) [c2root] ∧
    (sortByCreated [c2late, c2early]).Pairwise (fun a c => createdLe a c) := by
  have h := C10_document_order [c2root, c2late, c2early] [c2root]
    [("r", [c2late, c2early])] [("r", c2root), ("b", c2late), ("a", c2early)] (by decide)
  exact ⟨h.2.1, (h.2.2 "r" [c2late, c2early] (by decide)).1⟩

/-! ## Claim C8 -/

/-- The C8 scenario message: body tagged as markup containing
`"Line1<br>Line2&nbsp;end"`. -/
def c8msg : Message :=
  ⟨some "1", none, none, none, none, some ⟨some "html", some "Line1<br>Line2&nbsp;end"⟩⟩

/-- C8 counterexample: in the per-thread exporter renderer
(`convert_thread_to_markdown` via `strip_html`), the scenario body does NOT
render as the two lines `"Line1"` and `"Line2 end"`: `strip_html` removes
`<br>` without inserting a line break, producing the single line
`"Line1Line2 end"`. -/
theorem C8_strip_html_single_line_counterexample :
    strip_html "Line1<br>Line2&nbsp;end" = "Line1Line2 end" ∧
    convert_thread_to_markdown c8msg [] =
      "# (No Subject)\n\n**Posted by:** Unknown\n**Date:** \n\n---\n\nLine1Line2 end\n" ∧
    "Line1Line2 end" ≠ "Line1" ++ "\n" ++ "Line2 end" := by
  refine ⟨rfl, rfl, by decide⟩

/-- C8 amended: the two-line rendering holds in the aggregate-threads
renderer (`create_threads.parse_html_content` / `format_message`), where
`<br>` becomes a newline and `&nbsp;` a space; the per-thread exporter's
`strip_html` instead yields the single line `"Line1Line2 end"` (see the
counterexample). -/
theorem C8_two_lines_in_threads_renderer :
    parse_html_content "Line1<br>Line2&nbsp;end" = "Line1" ++ "\n" ++ "Line2 end" ∧
    format_message c8msg 0 =
      some ("**Unknown** • Unknown time\n\nLine1\nLine2 end\n") ∧
    ("Line1\nLine2 end").data = "Line1".data ++ ['\n'] ++ "Line2 end".data := by
  refine ⟨rfl, rfl, by decide⟩

/-! ## Claim C7 -/

/-- The C7 counterexample message: a PLAIN-TEXT body containing
markup-looking characters. -/
def c7msg : Message :=
  ⟨some "1", none, none, none, none, some ⟨some "text", some "a<b>c"⟩⟩

/-- C7 counterexample: the per-thread exporter applies the HTML-to-text
normaliser to every body, NOT only to markup-tagged ones — a body tagged
`"text"` with content `"a<b>c"` is emitted as `"ac"`, not verbatim. -/
theorem C7_normalizer_unconditional_counterexample :
    convert_thread_to_markdown c7msg [] =
      "# (No Subject)\n\n**Posted by:** Unknown\n**Date:** \n\n---\n\nac\n" ∧
    strip_html "a<b>c" = "ac" ∧
    "ac" ≠ "a<b>c" := by
  refine ⟨rfl, rfl, by decide⟩

/-- C7 amended: in the aggregate-threads renderer
(`create_threads.format_message`) the normaliser is applied iff
`contentType` is `"html"`: any non-`"html"` tag renders exactly like
`"text"` (no normalisation, blank body lines dropped — last conjunct), and
an `"html"` body renders exactly like a `"text"` body whose content was
passed through `parse_html_content` once.  In the per-thread exporter
(`convert_thread_to_markdown`) the `contentType` tag is never read at all:
the output is identical for any two tags, `strip_html` being applied
unconditionally. -/
theorem C7_normalizer_application (i r t f s : Option String) (ct ct2 : Option String)
    (content : String) (fr : Option FromRec) (replies : List Message) (ind : Nat)
    (hct : ct.getD "text" ≠ "html") :
    (convert_thread_to_markdown ⟨i, r, t, fr, s, some ⟨ct, some content⟩⟩ replies =
      convert_thread_to_markdown ⟨i, r, t, fr, s, some ⟨ct2, some content⟩⟩ replies) ∧
    (format_message ⟨i, r, none, fr, s, some ⟨ct, some content⟩⟩ ind =
      format_message ⟨i, r, none, fr, s, some ⟨some "text", some content⟩⟩ ind) ∧
    (format_message ⟨i, r, none, fr, s, some ⟨some "html", some content⟩⟩ ind =
      format_message ⟨i, r, none, fr, s,
        some ⟨some "text", some (parse_html_content content)⟩⟩ ind) ∧
    format_message ⟨some "1", none, none, none, none,
        some ⟨some "text", some "A\n\n  \nB"⟩⟩ 0 =
      some "**Unknown** • Unknown time\n\nA\nB\n" := by
  have hauth : ∀ (b1 b2 : Option BodyRec),
      format_message_author ⟨i, r, none, fr, s, b1⟩ =
        format_message_author ⟨i, r, none, fr, s, b2⟩ := by
    intro b1 b2
    unfold format_message_author
    rfl
  refine ⟨rfl, ?_, ?_, rfl⟩
  · simp [format_message, format_message_lines, hct, hauth _ (some ⟨some "text", some content⟩)]
  · simp [format_message, format_message_lines,
      hauth (some ⟨some "html", some content⟩) (some ⟨some "text", some (parse_html_content content)⟩)]

/-- Witness for `C7_normalizer_application` at a concrete plain-text
message. -/
theorem C7_normalizer_application_witness :
    format_message ⟨some "1", none, none, none, none, some ⟨none, some "a<b>c"⟩⟩ 0 =
      format_message ⟨some "1", none, none, none, none, some ⟨some "text", some "a<b>c"⟩⟩ 0 := by
  exact (C7_normalizer_application (some "1") none none none none none none
    "a<b>c" none [] 0 (by decide)).2.1

/-! ## Claim C5 -/

/-- C5 counterexample: rendering CAN fail — `create_threads.format_message`
calls `datetime.fromisoformat` outside any `try` block, so a message whose
non-empty `createdDateTime` is unparsable raises a `ValueError` (modelled
as `none`) instead of passing the timestamp through. -/
theorem C5_format_message_raises_counterexample :
    format_message ⟨some "1", none, some "not-a-date", none, none, none⟩ 0 = none ∧
    fromisoformat (pyReplaceS "not-a-date" "Z" "+00:00") = none := by
  refine ⟨rfl, rfl⟩

/-- C5 amended: in the per-thread exporter, rendering never fails —
`format_datetime` returns a formatted timestamp when the (Z-normalised)
input parses and returns the input unchanged otherwise, and
`convert_thread_to_markdown` degrades every missing field to its sentinel
(`"(No Subject)"`, `"Unknown"`, empty body — the concrete all-absent
render below).  In the aggregate-threads renderer missing fields also
degrade to sentinels (a message with NO `createdDateTime` always renders,
with `"Unknown time"`), but a non-empty unparsable timestamp raises
instead of being passed through (see the counterexample). -/
theorem C5_render_degrades_to_sentinels :
    (∀ s, fromisoformat (pyReplaceS s "Z" "+00:00") = none → format_datetime s = s) ∧
    (∀ s dt, fromisoformat (pyReplaceS s "Z" "+00:00") = some dt →
      format_datetime s = strftime_ymd_hms_utc dt) ∧
    convert_thread_to_markdown ⟨none, none, none, none, none, none⟩ [] =
      "# (No Subject)\n\n**Posted by:** Unknown\n**Date:** \n\n---\n\n\n" ∧
    (∀ m ind, m.createdDateTime = none → (format_message m ind).isSome = true) := by
  refine ⟨?_, ?_, rfl, ?_⟩
  · intro s hs
    unfold format_datetime
    rw [hs]
  · intro s dt hs
    unfold format_datetime
    rw [hs]
  · intro m ind hm
    simp [format_message, format_message_lines, hm]

/-- Witness for `C5_render_degrades_to_sentinels` at concrete inputs. -/
theorem C5_render_degrades_to_sentinels_witness :
    format_datetime "not-a-date" = "not-a-date" ∧
    format_datetime "2024-01-01T10:00:00Z" = "2024-01-01 10:00:00 UTC" ∧
    (format_message ⟨some "1", none, none, none, none, none⟩ 0).isSome = true := by
  refine ⟨C5_render_degrades_to_sentinels.1 "not-a-date" rfl, ?_, ?_⟩
  · exact C5_render_degrades_to_sentinels.2.1 "2024-01-01T10:00:00Z"
      ⟨2024, 1, 1, 10, 0, 0⟩ rfl
  · exact C5_render_degrades_to_sentinels.2.2.2
      ⟨some "1", none, none, none, none, none⟩ 0 rfl

/-! ## Claim C6 -/

/-- C6: a reply-collection request answered with status 404 makes
`fetch_message_replies` return the empty reply list as a legitimate
non-error outcome (`some []`, never the `none` that models an aborted
fetch), whatever the cap, the replies already accumulated and the rest of
the script; the surrounding export run consumes resolved reply lists as
plain data, so the run is not aborted. -/
theorem C6_replies_404_empty (max_replies : Option Nat) (rest : List PageResponse)
    (acc : List Message) :
    fetch_replies_loop max_replies (PageResponse.httpError 404 :: rest) acc = some [] := by
  simp [fetch_replies_loop]

/-! ## Claim C3 -/

def c3msg : Message := ⟨some "m1", none, none, none, none, none⟩

def c3msg2 : Message := ⟨some "m2", none, none, none, none, none⟩

/-- C3 counterexample: a supplied maximum of 0 is smaller than the 1
available item, yet the fetch returns 1 message, not 0 — Python's
`if max_messages and ...` treats a cap of 0 as falsy, so it is never
enforced. -/
theorem C3_cap_zero_counterexample :
    export_loop false (fun _ => []) (some 0)
        [PageResponse.page [c3msg] false] initExportState =
      some ⟨[c3msg], ["thread_m1.md"], 0, 1, [], 0⟩ ∧
    (0 : Nat) < 1 := by
  refine ⟨rfl, by decide⟩

/-- C3 amended: for every POSITIVE maximum item count, if every success
page of the run carries a continuation link (so the collection is never
exhausted — pagination can only stop at the cap) and the fetch loop
terminates normally, then the resulting message sequence has exactly the
maximum length: the loop truncated after the page on which the
accumulator reached or exceeded the cap and stopped despite the remaining
continuation link. -/
theorem C3_cap_truncates (fr : Bool) (rf : Message → List Message) (m : Nat)
    (script : List PageResponse) (st : ExportState) (res : ExportResult)
    (hm : 0 < m)
    (hnext : ∀ batch nx, PageResponse.page batch nx ∈ script → nx = true)
    (hrun : export_loop fr rf (some m) script st = some res) :
    res.messages.length = m := by
  induction script generalizing st with
  | nil => cases hrun
  | cons resp rest ih =>
    match resp with
    | .rateLimited ra =>
      simp only [export_loop] at hrun
      exact ih _ (fun batch nx hmem => hnext batch nx (List.mem_cons_of_mem _ hmem)) hrun
    | .httpError code => cases hrun
    | .networkError => cases hrun
    | .page batch nx =>
      have hnx : nx = true := hnext batch nx (List.mem_cons_self _ _)
      subst hnx
      simp only [export_loop] at hrun
      split at hrun
      · rename_i hcond
        rw [Bool.and_eq_true, decide_eq_true_eq] at hcond
        simp only [Option.getD_some] at hcond
        rw [Option.some.injEq] at hrun
        subst hrun
        simp only [finalize, Option.getD_some, List.length_take]
        omega
      · split at hrun
        · exact ih _ (fun batch2 nx2 hmem => hnext batch2 nx2 (List.mem_cons_of_mem _ hmem)) hrun
        · rename_i hfalse
          exact absurd trivial hfalse

/-- The result `export_loop` produces on the C3 witness input. -/
def c3res : ExportResult := ⟨[c3msg], ["thread_m1.md", "thread_m2.md"], 0, 1, [], 0⟩

/-- Witness for `C3_cap_truncates`: cap 1, one page of two messages with a
continuation link left over. -/
theorem C3_cap_truncates_witness :
    export_loop false (fun _ => []) (some 1)
        [PageResponse.page [c3msg, c3msg2] true] initExportState = some c3res ∧
      c3res.messages.length = 1 := by
  refine ⟨rfl, ?_⟩
  exact C3_cap_truncates false (fun _ => []) 1
    [PageResponse.page [c3msg, c3msg2] true] initExportState c3res (by decide)
    (by
      intro batch nx hmem
      rw [List.mem_singleton] at hmem
      cases hmem
      rfl) rfl

/-! ## Claim C4 -/

/-- C4 counterexample: a run with one rate-limited request followed by one
final page reports `pages_fetched = 2`, although only one page was
actually retrieved — `page += 1` runs at the top of every loop iteration,
BEFORE the 429 check, so rate-limited requests do count toward the
reported page count (the claim says they do not).  The recorded sleep is
the 60-unit default, the accumulator is empty as expected. -/
theorem C4_page_count_counterexample :
    export_loop false (fun _ => []) none
        [PageResponse.rateLimited none, PageResponse.page [] false] initExportState =
      some ⟨[], [], 0, 2, [60], 0⟩ ∧
    (2 : Nat) ≠ 1 := by
  refine ⟨rfl, by decide⟩

/-- C4 amended: a burst of rate-limited responses makes the fetcher sleep
for each server-specified retry interval (60 time units when the
`Retry-After` header is absent) and reissue the same cursor: the message
accumulator, the written thread files, the reply count and the pacing
count are all untouched (no duplication), and the loop continues with the
rest of the script exactly as if the 429s had not happened — EXCEPT that
the reported page counter advances once per rate-limited attempt. -/
theorem C4_rate_limit_retry (fr : Bool) (rf : Message → List Message)
    (maxm : Option Nat) (ras : List (Option Nat)) (rest : List PageResponse)
    (st : ExportState) :
    export_loop fr rf maxm (ras.map PageResponse.rateLimited ++ rest) st =
      export_loop fr rf maxm rest
        { st with
          page := st.page + ras.length,
          rate_sleeps := st.rate_sleeps ++ ras.map (fun r => r.getD 60) } := by
  induction ras generalizing st with
  | nil => simp
  | cons ra ras ih =>
    simp only [List.map_cons, List.cons_append, export_loop]
    simp only [List.append_eq]
    rw [ih]
    congr 1
    simp only [ExportState.mk.injEq, List.length_cons, List.map_cons, List.append_assoc,
      List.singleton_append, true_and, and_true]
    omega

/-! ## Claim C9 -/

/-- C9: when the maximum-message cap is reached partway through a fetched
page, a thread file is still recorded for EVERY message of that final
page while the stored message list is truncated to the cap: (first part)
on any successful run the number of thread files is at least the
`message_count` recorded in the metadata; (second part) the cap-break
step appends the filename of every batch message to `thread_files` and
keeps only the first `m` messages, so the file count can strictly exceed
the metadata count. -/
theorem C9_thread_files_cover_final_page (fr : Bool) (rf : Message → List Message) :
    (∀ (maxm : Option Nat) script st res, st.messages.length ≤ st.thread_files.length →
      export_loop fr rf maxm script st = some res →
      res.messages.length ≤ res.thread_files.length ∧
      message_count res = res.messages.length) ∧
    (∀ batch nx rest st m, 0 < m → m ≤ st.messages.length + batch.length →
      export_loop fr rf (some m) (PageResponse.page batch nx :: rest) st =
        some (finalize { st with
          page := st.page + 1,
          thread_files := st.thread_files ++ batch.map thread_filename,
          total_replies := st.total_replies + repliesCount fr rf batch,
          messages := (st.messages ++ batch).take m })) := by
  constructor
  · intro maxm script
    induction script with
    | nil => intro st res hinv hrun; cases hrun
    | cons resp rest ih =>
      intro st res hinv hrun
      match resp with
      | .rateLimited ra =>
        simp only [export_loop] at hrun
        refine ih _ _ ?_ hrun
        simpa using hinv
      | .httpError code => cases hrun
      | .networkError => cases hrun
      | .page batch nx =>
        simp only [export_loop] at hrun
        have hinv2 : (st.messages ++ batch).length ≤
            (st.thread_files ++ batch.map thread_filename).length := by
          simp only [List.length_append, List.length_map]
          omega
        split at hrun
        · rw [Option.some.injEq] at hrun
          subst hrun
          refine ⟨?_, rfl⟩
          simp only [finalize, List.length_take]
          simp only [List.length_append, List.length_map] at hinv2 ⊢
          omega
        · split at hrun
          · refine ih _ _ ?_ hrun
            simpa using hinv2
          · rw [Option.some.injEq] at hrun
            subst hrun
            exact ⟨hinv2, rfl⟩
  · intro batch nx rest st m hm hlen
    have htc : truthyCap (some m) = true := by
      simp only [truthyCap, bne_iff_ne]
      omega
    simp only [export_loop, htc, Bool.true_and]
    rw [decide_eq_true (by simpa using hlen)]
    simp

/-- Witness for `C9_thread_files_cover_final_page`: cap 1 reached in the
middle of a two-message page — two thread files, one stored message. -/
theorem C9_thread_files_cover_final_page_witness :
    export_loop false (fun _ => []) (some 1)
        [PageResponse.page [c3msg, c3msg2] true] initExportState =
      some ⟨[c3msg], ["thread_m1.md", "thread_m2.md"], 0, 1, [], 0⟩ ∧
    (1 : Nat) < 2 := by
  have h := (C9_thread_files_cover_final_page false (fun _ => [])).2
    [c3msg, c3msg2] true [] initExportState 1 (by decide) (by decide)
  refine ⟨?_, by decide⟩
  rw [h]
  rfl

end TeamsExporter
